import Mathlib

/-!
Shallow embedding of the transactional core of the Haulout marketplace:
the Sui Move modules ai_twin_marketplace::marketplace (listings and
purchase settlement), ai_twin_marketplace::access_token (access
credentials), ai_twin_marketplace::revenue_distribution (per-seller
balances) and ai_twin_marketplace::ai_twin_nft (asset registry).

Move u64 arithmetic aborts on overflow and underflow; we model u64 values
as Nat and every arithmetic step as a checked operation in the Except
monad, so an aborting transaction is an .error result and leaves no state
behind (Move transactions roll back atomically on abort).  sui::table is
modelled as an association list with abort-faithful add, remove and
borrow.  Event emission is a pure side output with no effect on registry
state, and is omitted.  Sui object ownership (an entry function taking an
object by value can only be invoked by the owner of that object) is
modelled by an explicit owner parameter checked against the sender; a
violation is the distinguished MoveAbort.ownership outcome.
-/

/-- Abort outcomes of a Move transaction in this embedding. -/
inductive MoveAbort where
  | code (n : Nat)
  | arith
  | tableErr
  | coinErr
  | ownership
deriving DecidableEq, Repr

/-- 2 to the 64: the first value a u64 cannot hold. -/
def U64SIZE : Nat := 18446744073709551616

/-- Checked u64 addition: Move aborts when the sum does not fit in u64. -/
def u64Add (a b : Nat) : Except MoveAbort Nat :=
  if a + b < U64SIZE then .ok (a + b) else .error .arith

/-- Checked u64 multiplication: Move aborts when the product does not fit in u64. -/
def u64Mul (a b : Nat) : Except MoveAbort Nat :=
  if a * b < U64SIZE then .ok (a * b) else .error .arith

/-- Checked u64 subtraction: Move aborts on underflow. -/
def u64Sub (a b : Nat) : Except MoveAbort Nat :=
  if b ≤ a then .ok (a - b) else .error .arith

/-- Move assert with an abort code: the assert bang of the source. -/
def req (cond : Bool) (e : MoveAbort) : Except MoveAbort Unit :=
  if cond then .ok () else .error e

/-- coin split of amt out of a coin of value v: aborts when amt exceeds v,
otherwise returns the split-off value and the remaining value. -/
def coinSplit (v amt : Nat) : Except MoveAbort (Nat × Nat) :=
  if amt ≤ v then .ok (amt, v - amt) else .error .coinErr

/-- sui::table modelled as an association list with unique keys. -/
def Table (K V : Type) : Type := List (K × V)

instance {K V : Type} [DecidableEq K] [DecidableEq V] : DecidableEq (Table K V) :=
  inferInstanceAs (DecidableEq (List (K × V)))

instance {K V : Type} [Repr K] [Repr V] : Repr (Table K V) :=
  inferInstanceAs (Repr (List (K × V)))

namespace Table

variable {K V : Type} [BEq K]

/-- table contains. -/
def contains (t : Table K V) (k : K) : Bool :=
  (List.lookup k t).isSome

/-- table add: aborts when the key is already present. -/
def add (t : Table K V) (k : K) (v : V) : Except MoveAbort (Table K V) :=
  if t.contains k then .error .tableErr else .ok ((k, v) :: t)

/-- table remove: aborts when the key is absent. -/
def remove (t : Table K V) (k : K) : Except MoveAbort (Table K V) :=
  if t.contains k then .ok (t.filter (fun p => !(p.1 == k))) else .error .tableErr

/-- table borrow: aborts when the key is absent. -/
def borrow (t : Table K V) (k : K) : Except MoveAbort V :=
  match List.lookup k t with
  | some v => .ok v
  | none => .error .tableErr

/-- Write back a mutated value for a key already present (the borrow_mut
then mutate pattern). -/
def set (t : Table K V) (k : K) (v : V) : Table K V :=
  t.map (fun p => bif p.1 == k then (k, v) else p)

end Table

namespace marketplace

/-- const PLATFORM_FEE_PERCENT. -/
def PLATFORM_FEE_PERCENT : Nat := 5

/-- const ACCESS_TYPE_FULL. -/
def ACCESS_TYPE_FULL : Nat := 1

/-- const ACCESS_TYPE_LIMITED. -/
def ACCESS_TYPE_LIMITED : Nat := 2

/-- const ACCESS_TYPE_TEMPORARY. -/
def ACCESS_TYPE_TEMPORARY : Nat := 3

/-- const ERROR_INSUFFICIENT_PAYMENT. -/
def ERROR_INSUFFICIENT_PAYMENT : Nat := 1

/-- const ERROR_LISTING_INACTIVE. -/
def ERROR_LISTING_INACTIVE : Nat := 2

/-- const ERROR_INVALID_ACCESS_TYPE. -/
def ERROR_INVALID_ACCESS_TYPE : Nat := 3

/-- const ERROR_NOT_SELLER. -/
def ERROR_NOT_SELLER : Nat := 4

/-- struct Listing of module marketplace; id is the object id of the
shared Listing object. -/
structure Listing where
  id : Nat
  twin_id : String
  nft_id : Nat
  seller : Nat
  price : Nat
  access_type : Nat
  access_duration_days : Nat
  terms : String
  is_active : Bool
  created_at : Nat
deriving DecidableEq, Repr

/-- struct MarketplaceRegistry of module marketplace. -/
structure MarketplaceRegistry where
  platform_fee_percent : Nat
  platform_fee_recipient : Nat
  total_listings : Nat
  total_sales : Nat
  total_volume : Nat
  listings : Table Nat Bool
deriving DecidableEq, Repr

/-- The shared state one settlement touches: the marketplace registry and
one shared Listing object. -/
structure MState where
  registry : MarketplaceRegistry
  listing : Listing
deriving DecidableEq, Repr

/-- public entry fun list_ai_twin.  fresh_id is the object id Sui
allocates for the new Listing object; nft_id and twin_id are read off the
AITwinNFT argument; sender is tx_context::sender; epoch is
tx_context::epoch. -/
def list_ai_twin (registry : MarketplaceRegistry) (fresh_id : Nat)
    (nft_id : Nat) (twin_id : String) (price access_type access_duration_days : Nat)
    (terms : String) (sender epoch : Nat) :
    Except MoveAbort (MarketplaceRegistry × Listing) := do
  req (access_type == ACCESS_TYPE_FULL || access_type == ACCESS_TYPE_LIMITED ||
       access_type == ACCESS_TYPE_TEMPORARY) (.code ERROR_INVALID_ACCESS_TYPE)
  let listing : Listing :=
    { id := fresh_id, twin_id := twin_id, nft_id := nft_id, seller := sender,
      price := price, access_type := access_type,
      access_duration_days := access_duration_days, terms := terms,
      is_active := true, created_at := epoch }
  let listings ← registry.listings.add fresh_id true
  let total ← u64Add registry.total_listings 1
  .ok ({ registry with listings := listings, total_listings := total }, listing)

/-- public entry fun update_listing. -/
def update_listing (s : MState) (sender : Nat) (new_price : Nat)
    (new_terms : String) : Except MoveAbort MState := do
  req (sender == s.listing.seller) (.code ERROR_NOT_SELLER)
  req s.listing.is_active (.code ERROR_LISTING_INACTIVE)
  .ok { s with listing := { s.listing with price := new_price, terms := new_terms } }

/-- public entry fun delist_ai_twin. -/
def delist_ai_twin (s : MState) (sender : Nat) : Except MoveAbort MState := do
  req (sender == s.listing.seller) (.code ERROR_NOT_SELLER)
  req s.listing.is_active (.code ERROR_LISTING_INACTIVE)
  let listing := { s.listing with is_active := false }
  let listings ←
    if s.registry.listings.contains s.listing.id then
      s.registry.listings.remove s.listing.id
    else
      .ok s.registry.listings
  .ok { registry := { s.registry with listings := listings }, listing := listing }

/-- The values purchase_access hands back to the caller: the platform fee
coin, the seller payment coin and the change coin (the pass-through
AITwinNFT is omitted). -/
structure PurchaseOut where
  platform_fee : Nat
  seller_amount : Nat
  change : Nat
deriving DecidableEq, Repr

/-- public fun purchase_access.  payment is the value of the Coin SUI
argument; sender is tx_context::sender (the buyer). -/
def purchase_access (s : MState) (sender payment : Nat) :
    Except MoveAbort (MState × PurchaseOut) := do
  req s.listing.is_active (.code ERROR_LISTING_INACTIVE)
  let payment_amount := payment
  req (payment_amount ≥ s.listing.price) (.code ERROR_INSUFFICIENT_PAYMENT)
  let prod ← u64Mul s.listing.price s.registry.platform_fee_percent
  let platform_fee := prod / 100
  let seller_amount ← u64Sub s.listing.price platform_fee
  let (platform_fee_coin, rest) ← coinSplit payment platform_fee
  let (seller_payment, change) ← coinSplit rest seller_amount
  let listing := { s.listing with is_active := false }
  let total_sales ← u64Add s.registry.total_sales 1
  let total_volume ← u64Add s.registry.total_volume s.listing.price
  let registry :=
    { s.registry with total_sales := total_sales, total_volume := total_volume }
  .ok ({ registry := registry, listing := listing },
       { platform_fee := platform_fee_coin, seller_amount := seller_payment,
         change := change })

/-- The operations a caller can aim at one listing after creation. -/
inductive MOp where
  | update (sender new_price : Nat) (new_terms : String)
  | delist (sender : Nat)
  | purchase (sender payment : Nat)
deriving DecidableEq, Repr

/-- Run one operation as a Move transaction: an abort rolls the state
back. -/
def applyOp (s : MState) (op : MOp) : MState :=
  match op with
  | .update sender p t =>
      match update_listing s sender p t with
      | .ok s2 => s2
      | .error _ => s
  | .delist sender =>
      match delist_ai_twin s sender with
      | .ok s2 => s2
      | .error _ => s
  | .purchase sender pay =>
      match purchase_access s sender pay with
      | .ok (s2, _) => s2
      | .error _ => s

/-- Run a sequence of operations against the listing. -/
def runOps (s : MState) (ops : List MOp) : MState :=
  ops.foldl applyOp s

end marketplace

namespace access_token

/-- const SECONDS_PER_DAY. -/
def SECONDS_PER_DAY : Nat := 86400

/-- const ERROR_NOT_AUTHORIZED. -/
def ERROR_NOT_AUTHORIZED : Nat := 5

/-- struct AccessToken of module access_token; id is the object id. -/
structure AccessToken where
  id : Nat
  twin_id : String
  owner : Nat
  access_type : Nat
  granted_at : Nat
  expires_at : Nat
  encrypted_key : List Nat
  purchase_listing_id : Nat
  is_active : Bool
  original_seller : Nat
deriving DecidableEq, Repr

/-- struct AccessRegistry of module access_token. -/
structure AccessRegistry where
  total_granted : Nat
  active_accesses : Table Nat (List Nat)
deriving DecidableEq, Repr

/-- public fun mint_access_token.  fresh_id is the object id Sui
allocates for the token; clock_ms is sui::clock::timestamp_ms. -/
def mint_access_token (registry : AccessRegistry) (fresh_id : Nat)
    (twin_id : String) (owner access_type duration_days : Nat)
    (encrypted_key : List Nat) (listing_id original_seller clock_ms : Nat) :
    Except MoveAbort (AccessRegistry × AccessToken) := do
  let current_time := clock_ms / 1000
  let dur ← u64Mul duration_days SECONDS_PER_DAY
  let expires_at ← u64Add current_time dur
  let token : AccessToken :=
    { id := fresh_id, twin_id := twin_id, owner := owner,
      access_type := access_type, granted_at := current_time,
      expires_at := expires_at, encrypted_key := encrypted_key,
      purchase_listing_id := listing_id, is_active := true,
      original_seller := original_seller }
  let acc ←
    if !(registry.active_accesses.contains owner) then
      registry.active_accesses.add owner []
    else
      .ok registry.active_accesses
  let owner_tokens ← acc.borrow owner
  let acc := acc.set owner (owner_tokens ++ [fresh_id])
  let total ← u64Add registry.total_granted 1
  .ok ({ total_granted := total, active_accesses := acc }, token)

/-- public entry fun revoke_access.  The AdminCap argument is an owned
capability object; holding it is required to call, but the in-code check
is against original_seller only. -/
def revoke_access (token : AccessToken) (sender : Nat) :
    Except MoveAbort AccessToken := do
  req (sender == token.original_seller) (.code ERROR_NOT_AUTHORIZED)
  .ok { token with is_active := false }

/-- public fun check_access: active and current time strictly before
expires_at. -/
def check_access (token : AccessToken) (clock_ms : Nat) : Bool :=
  if !token.is_active then
    false
  else
    clock_ms / 1000 < token.expires_at

/-- public entry fun transfer_access.  The token is passed by value, so
the Sui runtime only lets the current owner of the token object call
this; sui_owner is that object owner and the check models the runtime
ownership rule.  Returns the updated registry, the token record and the
new object owner (transfer::public_transfer to recipient). -/
def transfer_access (registry : AccessRegistry) (sui_owner : Nat)
    (token : AccessToken) (sender recipient : Nat) :
    Except MoveAbort (AccessRegistry × AccessToken × Nat) := do
  req (sender == sui_owner) .ownership
  let token_id := token.id
  let acc ←
    if registry.active_accesses.contains sender then do
      let sender_tokens ← registry.active_accesses.borrow sender
      let sender_tokens :=
        if token_id ∈ sender_tokens then sender_tokens.erase token_id
        else sender_tokens
      .ok (registry.active_accesses.set sender sender_tokens)
    else
      .ok registry.active_accesses
  let acc ←
    if !(acc.contains recipient) then acc.add recipient []
    else .ok acc
  let recipient_tokens ← acc.borrow recipient
  let acc := acc.set recipient (recipient_tokens ++ [token_id])
  .ok ({ registry with active_accesses := acc }, token, recipient)

end access_token

namespace revenue_distribution

/-- const ERROR_INSUFFICIENT_BALANCE. -/
def ERROR_INSUFFICIENT_BALANCE : Nat := 0

/-- const ERROR_NO_EARNINGS. -/
def ERROR_NO_EARNINGS : Nat := 1

/-- struct RevenuePool of module revenue_distribution; a Balance of SUI
is modelled by its u64 value. -/
structure RevenuePool where
  balances : Table Nat Nat
  total_platform_fees : Nat
  platform_fee_recipient : Nat
deriving DecidableEq, Repr

/-- public fun record_sale; seller_payment and platform_fee are the
values of the two Coin SUI arguments. -/
def record_sale (pool : RevenuePool) (seller seller_payment platform_fee : Nat) :
    Except MoveAbort RevenuePool := do
  let bal ←
    if !(pool.balances.contains seller) then pool.balances.add seller 0
    else .ok pool.balances
  let seller_balance ← bal.borrow seller
  let joined ← u64Add seller_balance seller_payment
  let bal := bal.set seller joined
  let fees ← u64Add pool.total_platform_fees platform_fee
  .ok { pool with balances := bal, total_platform_fees := fees }

/-- public entry fun withdraw_earnings; returns the updated pool and the
withdrawn coin value (transferred to the sender). -/
def withdraw_earnings (pool : RevenuePool) (sender : Nat) :
    Except MoveAbort (RevenuePool × Nat) := do
  req (pool.balances.contains sender) (.code ERROR_NO_EARNINGS)
  let balance_value ← pool.balances.borrow sender
  req (balance_value > 0) (.code ERROR_INSUFFICIENT_BALANCE)
  let bal := pool.balances.set sender (balance_value - balance_value)
  .ok ({ pool with balances := bal }, balance_value)

/-- public fun get_balance. -/
def get_balance (pool : RevenuePool) (user : Nat) : Nat :=
  if !(pool.balances.contains user) then 0
  else
    match List.lookup user pool.balances with
    | some v => v
    | none => 0

end revenue_distribution

namespace ai_twin_nft

/-- const ERROR_TWIN_ALREADY_EXISTS. -/
def ERROR_TWIN_ALREADY_EXISTS : Nat := 1

/-- const ERROR_TWIN_NOT_FOUND. -/
def ERROR_TWIN_NOT_FOUND : Nat := 2

/-- struct AITwinNFT of module ai_twin_nft; id is the object id. -/
structure AITwinNFT where
  id : Nat
  twin_id : String
  creator : Nat
  name : String
  description : String
  training_data_blob_id : String
  created_at : Nat
  metadata : List Nat
deriving DecidableEq, Repr

/-- struct AITwinRegistry of module ai_twin_nft. -/
structure AITwinRegistry where
  total_minted : Nat
  twins : Table String Nat
deriving DecidableEq, Repr

/-- public entry fun transfer_twin.  The NFT is passed by value, so the
Sui runtime only lets the current owner of the NFT object call this;
sui_owner is that object owner and the check models the runtime
ownership rule.  Returns the updated registry, the NFT record and the
new object owner (transfer::public_transfer to recipient). -/
def transfer_twin (registry : AITwinRegistry) (sui_owner : Nat)
    (nft : AITwinNFT) (sender recipient : Nat) :
    Except MoveAbort (AITwinRegistry × AITwinNFT × Nat) := do
  req (sender == sui_owner) .ownership
  let twin_id := nft.twin_id
  let twins ←
    if registry.twins.contains twin_id then registry.twins.remove twin_id
    else .ok registry.twins
  let twins ← twins.add twin_id recipient
  .ok ({ registry with twins := twins }, nft, recipient)

/-- public fun get_twin_owner. -/
def get_twin_owner (registry : AITwinRegistry) (twin_id : String) :
    Except MoveAbort Nat := do
  req (registry.twins.contains twin_id) (.code ERROR_TWIN_NOT_FOUND)
  registry.twins.borrow twin_id

end ai_twin_nft

/-! Inversion lemmas for the Except transaction chains. -/

theorem exBind_ok {ε α β : Type} {x : Except ε α} {f : α → Except ε β} {b : β} :
    (x >>= f) = Except.ok b ↔ ∃ a, x = Except.ok a ∧ f a = Except.ok b := by
  cases x with
  | error e =>
    refine ⟨fun h => ?_, fun h => ?_⟩
    · exact absurd h (by intro h2; cases h2)
    · obtain ⟨a, ha, _⟩ := h
      cases ha
  | ok a =>
    refine ⟨fun h => ⟨a, rfl, h⟩, fun h => ?_⟩
    obtain ⟨a2, ha, hf⟩ := h
    cases ha
    exact hf

theorem req_ok {c : Bool} {e : MoveAbort} {u : Unit} :
    req c e = Except.ok u ↔ c = true := by
  unfold req
  split <;> simp_all

theorem req_true {c : Bool} {e : MoveAbort} (h : c = true) :
    req c e = Except.ok () := by
  simp [req, h]

theorem req_false {c : Bool} {e : MoveAbort} (h : c = false) :
    req c e = Except.error e := by
  simp [req, h]

theorem u64Add_ok {a b n : Nat} :
    u64Add a b = Except.ok n ↔ a + b < U64SIZE ∧ n = a + b := by
  unfold u64Add
  split <;> simp_all [eq_comm]

theorem u64Mul_ok {a b n : Nat} :
    u64Mul a b = Except.ok n ↔ a * b < U64SIZE ∧ n = a * b := by
  unfold u64Mul
  split <;> simp_all [eq_comm]

theorem u64Sub_ok {a b n : Nat} :
    u64Sub a b = Except.ok n ↔ b ≤ a ∧ n = a - b := by
  unfold u64Sub
  split <;> simp_all [eq_comm]

theorem coinSplit_ok {v amt : Nat} {p : Nat × Nat} :
    coinSplit v amt = Except.ok p ↔ amt ≤ v ∧ p = (amt, v - amt) := by
  unfold coinSplit
  split <;> simp_all [eq_comm]

theorem Table.add_ok {K V : Type} [BEq K] {t t2 : Table K V} {k : K} {v : V} :
    Table.add t k v = Except.ok t2 ↔ t.contains k = false ∧ t2 = (k, v) :: t := by
  unfold Table.add
  split
  · simp_all
  · simp_all
    exact eq_comm

theorem Table.remove_ok {K V : Type} [BEq K] {t t2 : Table K V} {k : K} :
    Table.remove t k = Except.ok t2 ↔
      t.contains k = true ∧ t2 = t.filter (fun p => !(p.1 == k)) := by
  unfold Table.remove
  split
  · simp_all
    exact eq_comm
  · simp_all

theorem Table.borrow_ok {K V : Type} [BEq K] {t : Table K V} {k : K} {v : V} :
    Table.borrow t k = Except.ok v ↔ List.lookup k t = some v := by
  unfold Table.borrow
  split <;> simp_all

/-! Lookup facts about the association-list tables. -/

theorem beq_comm_false {K : Type} [BEq K] [LawfulBEq K] {a b : K}
    (h : (a == b) = false) : (b == a) = false := by
  rw [beq_eq_false_iff_ne] at h ⊢
  exact fun h2 => h h2.symm

theorem Table.lookup_set_self {K V : Type} [BEq K] [LawfulBEq K]
    {t : Table K V} {k : K} (v : V) (h : (List.lookup k t).isSome) :
    List.lookup k (Table.set t k v) = some v := by
  induction t with
  | nil => simp [List.lookup] at h
  | cons p rest ih =>
    obtain ⟨pk, pv⟩ := p
    cases hbk : pk == k with
    | true =>
      have hpk : pk = k := eq_of_beq hbk
      subst hpk
      simp [Table.set, List.lookup, hbk]
    | false =>
      have hkb : (k == pk) = false := beq_comm_false hbk
      simp only [List.lookup, hkb] at h
      simpa [Table.set, List.lookup, hbk, hkb] using ih h

theorem Table.contains_set {K V : Type} [BEq K] [LawfulBEq K]
    {t : Table K V} {k k2 : K} (v : V) :
    Table.contains (Table.set t k v) k2 = Table.contains t k2 := by
  induction t with
  | nil => rfl
  | cons p rest ih =>
    obtain ⟨pk, pv⟩ := p
    cases hbk : pk == k with
    | true =>
      have hpk : pk = k := eq_of_beq hbk
      subst hpk
      cases h2 : k2 == pk with
      | true =>
        simp only [Table.contains, Table.set, List.map_cons, hbk, cond_true,
          List.lookup, h2, Option.isSome_some]
      | false =>
        simp only [Table.contains, Table.set, List.map_cons, hbk, cond_true,
          List.lookup, h2]
        simpa [Table.contains, Table.set] using ih
    | false =>
      cases h2 : k2 == pk with
      | true =>
        simp only [Table.contains, Table.set, List.map_cons, hbk, cond_false,
          List.lookup, h2]
      | false =>
        simp only [Table.contains, Table.set, List.map_cons, hbk, cond_false,
          List.lookup, h2]
        simpa [Table.contains, Table.set] using ih

theorem Table.lookup_filter_out {K V : Type} [BEq K] [LawfulBEq K]
    {t : Table K V} {k : K} :
    List.lookup k (t.filter (fun p => !(p.1 == k))) = none := by
  induction t with
  | nil => rfl
  | cons p rest ih =>
    obtain ⟨pk, pv⟩ := p
    cases hbk : pk == k with
    | true => simpa [List.filter, hbk] using ih
    | false =>
      have hkb : (k == pk) = false := beq_comm_false hbk
      simpa [List.filter, hbk, List.lookup, hkb] using ih

theorem exIte_ok {ε α : Type} {c : Prop} [Decidable c] {x y : Except ε α} {a : α} :
    (if c then x else y) = Except.ok a ↔ (c ∧ x = Except.ok a) ∨ (¬c ∧ y = Except.ok a) := by
  split <;> simp_all

instance {ε α : Type} [DecidableEq ε] [DecidableEq α] : DecidableEq (Except ε α) :=
  fun a b =>
    match a, b with
    | .ok x, .ok y =>
      if h : x = y then isTrue (by rw [h]) else
        isFalse (by intro hc; cases hc; exact h rfl)
    | .error x, .error y =>
      if h : x = y then isTrue (by rw [h]) else
        isFalse (by intro hc; cases hc; exact h rfl)
    | .ok _, .error _ => isFalse (by intro hc; cases hc)
    | .error _, .ok _ => isFalse (by intro hc; cases hc)

namespace marketplace

/-- Full inversion of a successful purchase_access transaction. -/
theorem purchase_ok_elim {s : MState} {b pay : Nat} {s2 : MState} {out : PurchaseOut}
    (h : purchase_access s b pay = Except.ok (s2, out)) :
    s.listing.is_active = true ∧ s.listing.price ≤ pay ∧
    out.platform_fee = s.listing.price * s.registry.platform_fee_percent / 100 ∧
    out.seller_amount = s.listing.price - out.platform_fee ∧
    out.platform_fee ≤ s.listing.price ∧
    s2.listing = { s.listing with is_active := false } ∧
    s2.registry.listings = s.registry.listings := by
  simp only [purchase_access, exBind_ok, req_ok, u64Mul_ok, u64Sub_ok, u64Add_ok,
    coinSplit_ok, ge_iff_le, decide_eq_true_eq] at h
  obtain ⟨u1, hact, u2, hpay, pf, ⟨hpf1, rfl⟩, sa, ⟨hsa1, rfl⟩, c1, ⟨hc1, rfl⟩,
    c2, ⟨hc2, rfl⟩, ts, ⟨hts, rfl⟩, tv, ⟨htv, rfl⟩, hok⟩ := h
  simp only [Except.ok.injEq, Prod.mk.injEq] at hok
  obtain ⟨rfl, rfl⟩ := hok
  exact ⟨hact, hpay, rfl, rfl, hsa1, rfl, rfl⟩

/-- purchase_access on an inactive listing aborts with ERROR_LISTING_INACTIVE. -/
theorem purchase_inactive {s : MState} (b pay : Nat)
    (h : s.listing.is_active = false) :
    purchase_access s b pay = Except.error (.code ERROR_LISTING_INACTIVE) := by
  unfold purchase_access
  rw [h]
  rfl

/-- purchase_access with payment below price aborts with
ERROR_INSUFFICIENT_PAYMENT. -/
theorem purchase_insufficient {s : MState} (b : Nat) {pay : Nat}
    (hact : s.listing.is_active = true) (hlt : pay < s.listing.price) :
    purchase_access s b pay = Except.error (.code ERROR_INSUFFICIENT_PAYMENT) := by
  unfold purchase_access
  rw [hact]
  have : (pay ≥ s.listing.price) = False := by simp; omega
  simp [req, this]
  rfl

/-- delist_ai_twin on an inactive listing aborts: with
ERROR_LISTING_INACTIVE for the seller, with ERROR_NOT_SELLER for anyone
else (the seller check comes first in the source). -/
theorem delist_inactive {s : MState} (c : Nat)
    (h : s.listing.is_active = false) :
    delist_ai_twin s c =
      Except.error (.code (bif c == s.listing.seller then ERROR_LISTING_INACTIVE
                           else ERROR_NOT_SELLER)) := by
  unfold delist_ai_twin
  cases hc : c == s.listing.seller with
  | true => rw [show c = s.listing.seller from eq_of_beq hc] at *; simp [req, h]; rfl
  | false => simp [req, hc]; rfl

/-- Inversion of a successful delist_ai_twin transaction. -/
theorem delist_ok_elim {s s2 : MState} {c : Nat}
    (h : delist_ai_twin s c = Except.ok s2) :
    c = s.listing.seller ∧ s.listing.is_active = true ∧
    s2.listing = { s.listing with is_active := false } ∧
    List.lookup s.listing.id s2.registry.listings = none := by
  simp only [delist_ai_twin, exBind_ok, req_ok, exIte_ok, Table.remove_ok,
    beq_iff_eq, Except.ok.injEq] at h
  obtain ⟨u1, hc, u2, hact, hite⟩ := h
  rcases hite with ⟨hcon, t2, ⟨hcon2, rfl⟩, hok⟩ | ⟨hcon, a, rfl, hok⟩
  · subst hok
    exact ⟨hc, hact, rfl, Table.lookup_filter_out⟩
  · subst hok
    refine ⟨hc, hact, rfl, ?_⟩
    cases hl : List.lookup s.listing.id s.registry.listings with
    | none => rfl
    | some v => exact absurd (by simp [Table.contains, hl]) hcon

/-- Once the listing is inactive, every operation on it aborts and the
state is unchanged. -/
theorem applyOp_inactive_fix {s : MState} (op : MOp)
    (h : s.listing.is_active = false) : applyOp s op = s := by
  cases op with
  | update sender p t =>
    simp only [applyOp, update_listing]
    cases hs : sender == s.listing.seller with
    | true => rw [h]; rfl
    | false => rfl
  | delist sender =>
    simp only [applyOp, delist_ai_twin]
    cases hs : sender == s.listing.seller with
    | true => rw [h]; rfl
    | false => rfl
  | purchase sender pay =>
    simp only [applyOp, purchase_access]
    rw [h]
    rfl

/-- Once the listing is inactive, any sequence of operations leaves the
state unchanged. -/
theorem runOps_inactive_fix {s : MState} (ops : List MOp)
    (h : s.listing.is_active = false) : runOps s ops = s := by
  induction ops with
  | nil => rfl
  | cons op rest ih =>
    unfold runOps at *
    rw [List.foldl_cons, applyOp_inactive_fix op h]
    exact ih

/-- An active listing with sufficient payment and in-range u64 values is
always purchasable. -/
theorem purchase_succeeds {s : MState} (b : Nat) {pay : Nat}
    (hact : s.listing.is_active = true)
    (hpay : s.listing.price ≤ pay)
    (hmul : s.listing.price * s.registry.platform_fee_percent < U64SIZE)
    (hfee : s.registry.platform_fee_percent ≤ 100)
    (hts : s.registry.total_sales + 1 < U64SIZE)
    (htv : s.registry.total_volume + s.listing.price < U64SIZE) :
    ∃ s2 out, purchase_access s b pay = Except.ok (s2, out) := by
  have hpf : s.listing.price * s.registry.platform_fee_percent / 100 ≤ s.listing.price := by
    calc s.listing.price * s.registry.platform_fee_percent / 100
        ≤ s.listing.price * 100 / 100 := Nat.div_le_div_right (Nat.mul_le_mul_left _ hfee)
      _ = s.listing.price := Nat.mul_div_cancel s.listing.price (by norm_num)
  have hpf2 : s.listing.price * s.registry.platform_fee_percent / 100 ≤ pay :=
    le_trans hpf hpay
  have hpf3 : s.listing.price - s.listing.price * s.registry.platform_fee_percent / 100 ≤
      pay - s.listing.price * s.registry.platform_fee_percent / 100 :=
    Nat.sub_le_sub_right hpay _
  simp only [purchase_access, exBind_ok, req_ok, u64Mul_ok, u64Sub_ok, u64Add_ok,
    coinSplit_ok, ge_iff_le, decide_eq_true_eq, Except.ok.injEq, Prod.mk.injEq]
  exact ⟨_, _, (), hact, (), hpay, _, ⟨hmul, rfl⟩, _, ⟨hpf, rfl⟩, _, ⟨hpf2, rfl⟩,
    _, ⟨hpf3, rfl⟩, _, ⟨hts, rfl⟩, _, ⟨htv, rfl⟩, rfl, rfl⟩

end marketplace

namespace access_token

/-- Inversion of a successful mint_access_token: the minted token record,
whatever the access policy. -/
theorem mint_ok_elim {reg reg2 : AccessRegistry} {tok : AccessToken}
    {fresh : Nat} {tid : String} {owner atype d : Nat} {key : List Nat}
    {lid seller mT : Nat}
    (h : mint_access_token reg fresh tid owner atype d key lid seller mT =
      Except.ok (reg2, tok)) :
    tok = { id := fresh, twin_id := tid, owner := owner, access_type := atype,
            granted_at := mT / 1000, expires_at := mT / 1000 + d * SECONDS_PER_DAY,
            encrypted_key := key, purchase_listing_id := lid, is_active := true,
            original_seller := seller } := by
  simp only [mint_access_token, exBind_ok, u64Mul_ok, u64Add_ok, exIte_ok,
    Table.add_ok, Table.borrow_ok, Except.ok.injEq, Prod.mk.injEq] at h
  obtain ⟨dur, ⟨hd, rfl⟩, exp, ⟨he, rfl⟩, hrest⟩ := h
  rcases hrest with ⟨hcon, acc, ⟨hc2, rfl⟩, lst, hlst, tot, ⟨ht, rfl⟩, hreg, htok⟩ |
    ⟨hcon, acc, rfl, lst, hlst, tot, ⟨ht, rfl⟩, hreg, htok⟩ <;> exact htok.symm

/-- check_access as a boolean formula over the token fields. -/
theorem check_access_eq (tok : AccessToken) (clock_ms : Nat) :
    check_access tok clock_ms =
      (tok.is_active && decide (clock_ms / 1000 < tok.expires_at)) := by
  unfold check_access
  cases tok.is_active <;> simp

/-- Inversion of a successful revoke_access: the token is deactivated and
nothing else changes. -/
theorem revoke_ok_elim {tok tok2 : AccessToken} {sender : Nat}
    (h : revoke_access tok sender = Except.ok tok2) :
    sender = tok.original_seller ∧ tok2 = { tok with is_active := false } := by
  simp only [revoke_access, exBind_ok, req_ok, beq_iff_eq, Except.ok.injEq] at h
  obtain ⟨u, hs, hok⟩ := h
  exact ⟨hs, hok.symm⟩

/-- Inversion of a successful transfer_access: the sender owned the token
object, the token record itself is returned unchanged (its stored owner
field included), the object moves to the recipient, and the recipient's
index now lists the token. -/
theorem transfer_ok_elim {reg reg2 : AccessRegistry} {suiOwner : Nat}
    {tok tok2 : AccessToken} {sender recipient newOwner : Nat}
    (h : transfer_access reg suiOwner tok sender recipient =
      Except.ok (reg2, tok2, newOwner)) :
    sender = suiOwner ∧ tok2 = tok ∧ newOwner = recipient ∧
    ∃ lst, List.lookup recipient reg2.active_accesses = some lst ∧ tok.id ∈ lst := by
  simp only [transfer_access, exBind_ok, req_ok, exIte_ok, Table.add_ok,
    Table.borrow_ok, Except.ok.injEq, Prod.mk.injEq] at h
  obtain ⟨u, hsui, hrest⟩ := h
  have hs : sender = suiOwner := eq_of_beq hsui
  rcases hrest with ⟨hcon, lst0, hlst0, acc1, rfl,
      ⟨hc2, acc2, ⟨hc3, rfl⟩, lst2, hlst2, hreg, htok, hnew⟩ |
      ⟨hc2, acc2, rfl, lst2, hlst2, hreg, htok, hnew⟩⟩ |
    ⟨hcon, acc1, rfl,
      ⟨hc2, acc2, ⟨hc3, rfl⟩, lst2, hlst2, hreg, htok, hnew⟩ |
      ⟨hc2, acc2, rfl, lst2, hlst2, hreg, htok, hnew⟩⟩ <;>
    (subst hreg
     exact ⟨hs, htok.symm, hnew.symm, _,
       Table.lookup_set_self _ (by simp [hlst2]), by simp⟩)

/-- transfer_access by anyone who does not own the token object is
rejected by the Sui runtime ownership rule. -/
theorem transfer_not_owner {reg : AccessRegistry} {suiOwner : Nat}
    {tok : AccessToken} {sender : Nat} (recipient : Nat)
    (h : sender ≠ suiOwner) :
    transfer_access reg suiOwner tok sender recipient =
      Except.error .ownership := by
  unfold transfer_access
  have hb : (sender == suiOwner) = false := by
    rw [beq_eq_false_iff_ne]
    exact h
  rw [hb]
  rfl

/-- transfer_access by the object owner always succeeds: there is no
in-code holder check beyond the runtime ownership rule. -/
theorem transfer_access_succeeds (reg : AccessRegistry) (suiOwner : Nat)
    (tok : AccessToken) (recipient : Nat) :
    ∃ reg2, transfer_access reg suiOwner tok suiOwner recipient =
      Except.ok (reg2, tok, recipient) := by
  simp only [transfer_access, exBind_ok, req_ok, exIte_ok, Table.add_ok,
    Table.borrow_ok, Except.ok.injEq, Prod.mk.injEq, beq_self_eq_true]
  by_cases hcon : Table.contains reg.active_accesses suiOwner = true
  · obtain ⟨lst0, hlst0⟩ := Option.isSome_iff_exists.mp hcon
    by_cases hcon2 : Table.contains
        (reg.active_accesses.set suiOwner
          (if tok.id ∈ lst0 then lst0.erase tok.id else lst0)) recipient = true
    · obtain ⟨lst2, hlst2⟩ := Option.isSome_iff_exists.mp hcon2
      exact ⟨_, (), trivial, Or.inl ⟨hcon, lst0, hlst0, _, rfl,
        Or.inr ⟨by simp [hcon2], _, rfl, lst2, hlst2, rfl, trivial⟩⟩⟩
    · have hf : Table.contains
          (reg.active_accesses.set suiOwner
            (if tok.id ∈ lst0 then lst0.erase tok.id else lst0)) recipient = false := by
        simpa using hcon2
      exact ⟨_, (), trivial, Or.inl ⟨hcon, lst0, hlst0, _, rfl,
        Or.inl ⟨by simp [hf], _, ⟨hf, rfl⟩, [], by simp [List.lookup],
          rfl, trivial⟩⟩⟩
  · by_cases hcon2 : Table.contains reg.active_accesses recipient = true
    · obtain ⟨lst2, hlst2⟩ := Option.isSome_iff_exists.mp hcon2
      exact ⟨_, (), trivial, Or.inr ⟨hcon, _, rfl,
        Or.inr ⟨by simp [hcon2], _, rfl, lst2, hlst2, rfl, trivial⟩⟩⟩
    · have hf : Table.contains reg.active_accesses recipient = false := by
        simpa using hcon2
      exact ⟨_, (), trivial, Or.inr ⟨hcon, _, rfl,
        Or.inl ⟨by simp [hf], _, ⟨hf, rfl⟩, [], by simp [List.lookup],
          rfl, trivial⟩⟩⟩

end access_token

namespace revenue_distribution

/-- Inversion of a successful withdraw_earnings. -/
theorem withdraw_ok_elim {pool pool2 : RevenuePool} {sender amt : Nat}
    (h : withdraw_earnings pool sender = Except.ok (pool2, amt)) :
    List.lookup sender pool.balances = some amt ∧ 0 < amt ∧
    pool2 = { pool with balances := pool.balances.set sender 0 } := by
  simp only [withdraw_earnings, exBind_ok, req_ok, Table.borrow_ok,
    Except.ok.injEq, Prod.mk.injEq, decide_eq_true_eq, gt_iff_lt] at h
  obtain ⟨u, hcon, bal, hbal, u2, hpos, hpool, rfl⟩ := h
  refine ⟨hbal, hpos, ?_⟩
  rw [← hpool]
  simp

/-- withdraw_earnings by a principal with no balance entry aborts with
ERROR_NO_EARNINGS. -/
theorem withdraw_no_entry {pool : RevenuePool} {sender : Nat}
    (h : pool.balances.contains sender = false) :
    withdraw_earnings pool sender = Except.error (.code ERROR_NO_EARNINGS) := by
  unfold withdraw_earnings
  rw [h]
  rfl

/-- withdraw_earnings by a principal whose balance entry is zero aborts
with ERROR_INSUFFICIENT_BALANCE. -/
theorem withdraw_zero_balance {pool : RevenuePool} {sender : Nat}
    (h : List.lookup sender pool.balances = some 0) :
    withdraw_earnings pool sender =
      Except.error (.code ERROR_INSUFFICIENT_BALANCE) := by
  have hcon : pool.balances.contains sender = true := by
    simp [Table.contains, h]
  have hb : Table.borrow pool.balances sender = Except.ok 0 := by
    simp [Table.borrow, h]
  unfold withdraw_earnings
  simp only [hcon, hb]
  rfl

end revenue_distribution

namespace ai_twin_nft

/-- transfer_twin by anyone who does not own the NFT object is rejected
by the Sui runtime ownership rule. -/
theorem transfer_twin_not_owner {reg : AITwinRegistry} {suiOwner : Nat}
    {nft : AITwinNFT} {sender : Nat} (recipient : Nat)
    (h : sender ≠ suiOwner) :
    transfer_twin reg suiOwner nft sender recipient =
      Except.error .ownership := by
  unfold transfer_twin
  have hb : (sender == suiOwner) = false := by
    rw [beq_eq_false_iff_ne]
    exact h
  rw [hb]
  rfl

/-- transfer_twin by the object owner always succeeds, whether or not the
twin is registered, and afterwards the registry records the recipient as
the owner of the twin. -/
theorem transfer_twin_succeeds (reg : AITwinRegistry) (suiOwner : Nat)
    (nft : AITwinNFT) (recipient : Nat) :
    ∃ reg2, transfer_twin reg suiOwner nft suiOwner recipient =
      Except.ok (reg2, nft, recipient) ∧
      List.lookup nft.twin_id reg2.twins = some recipient := by
  simp only [transfer_twin, exBind_ok, req_ok, exIte_ok, Table.add_ok,
    Table.remove_ok, Except.ok.injEq, Prod.mk.injEq, beq_self_eq_true]
  by_cases hcon : Table.contains reg.twins nft.twin_id = true
  · have hf : Table.contains
        (List.filter (fun p => !(p.1 == nft.twin_id)) reg.twins) nft.twin_id = false := by
      simp [Table.contains, Table.lookup_filter_out]
    refine ⟨_, ⟨(), trivial, Or.inl ⟨hcon, _, ⟨hcon, rfl⟩, _, ⟨hf, rfl⟩, rfl, trivial⟩⟩, ?_⟩
    simp [List.lookup]
  · have hf : Table.contains reg.twins nft.twin_id = false := by
      simpa using hcon
    refine ⟨_, ⟨(), trivial, Or.inr ⟨hcon, _, rfl, _, ⟨hf, rfl⟩, rfl, trivial⟩⟩, ?_⟩
    simp [List.lookup]

end ai_twin_nft

/-! Concrete fixtures used by the scenario witnesses and counterexamples. -/

/-- A listing of twin t at price 100 MIST with Full access, as in the
spec scenario. -/
def exListing : marketplace.Listing :=
  { id := 7, twin_id := "t", nft_id := 3, seller := 1, price := 100,
    access_type := 1, access_duration_days := 0, terms := "std",
    is_active := true, created_at := 0 }

/-- A marketplace registry configured with fee_percent 10, holding the
fixture listing. -/
def exRegistry : marketplace.MarketplaceRegistry :=
  { platform_fee_percent := 10, platform_fee_recipient := 9,
    total_listings := 1, total_sales := 0, total_volume := 0,
    listings := [(7, true)] }

/-- The settlement state before any purchase. -/
def exState : marketplace.MState :=
  { registry := exRegistry, listing := exListing }

/-- The settlement state after buyer 2 purchases at payment 100. -/
def exSold : marketplace.MState :=
  { registry := { platform_fee_percent := 10, platform_fee_recipient := 9,
                  total_listings := 1, total_sales := 1, total_volume := 100,
                  listings := [(7, true)] },
    listing := { id := 7, twin_id := "t", nft_id := 3, seller := 1, price := 100,
                 access_type := 1, access_duration_days := 0, terms := "std",
                 is_active := false, created_at := 0 } }

/-- The coins purchase_access returns on that purchase. -/
def exOut : marketplace.PurchaseOut :=
  { platform_fee := 10, seller_amount := 90, change := 0 }

/-- An empty access-credential registry. -/
def exAReg : access_token.AccessRegistry :=
  { total_granted := 0, active_accesses := [] }

/-- The registry after minting fixture credential 11 for holder 2. -/
def regC3 : access_token.AccessRegistry :=
  { total_granted := 1, active_accesses := [(2, [11])] }

/-- The credential minted with duration 30 days at clock 0. -/
def tokC3 : access_token.AccessToken :=
  { id := 11, twin_id := "t", owner := 2, access_type := 2, granted_at := 0,
    expires_at := 2592000, encrypted_key := [], purchase_listing_id := 7,
    is_active := true, original_seller := 1 }

/-- The registry after minting fixture credential 12 for holder 2. -/
def regC4 : access_token.AccessRegistry :=
  { total_granted := 1, active_accesses := [(2, [12])] }

/-- The credential minted under the Full policy with duration 0 at clock 0. -/
def tokC4 : access_token.AccessToken :=
  { id := 12, twin_id := "t", owner := 2, access_type := 1, granted_at := 0,
    expires_at := 0, encrypted_key := [], purchase_listing_id := 7,
    is_active := true, original_seller := 1 }

/-- A revenue pool holding 95 MIST for seller 1 and 5 MIST of fees. -/
def exPool : revenue_distribution.RevenuePool :=
  { balances := [(1, 95)], total_platform_fees := 5, platform_fee_recipient := 9 }

/-- The pool after seller 1 withdraws: the balance entry remains, at zero. -/
def exPool2 : revenue_distribution.RevenuePool :=
  { balances := [(1, 0)], total_platform_fees := 5, platform_fee_recipient := 9 }

/-- An asset registry that does not know twin t. -/
def exNReg : ai_twin_nft.AITwinRegistry :=
  { total_minted := 1, twins := [] }

/-- The NFT object for twin t, owned by principal 1. -/
def exNft : ai_twin_nft.AITwinNFT :=
  { id := 3, twin_id := "t", creator := 1, name := "n", description := "d",
    training_data_blob_id := "b", created_at := 0, metadata := [] }

/-- The asset registry after transferring the unregistered twin to 2. -/
def exNReg2 : ai_twin_nft.AITwinRegistry :=
  { total_minted := 1, twins := [("t", 2)] }

/-- A credential index holding token 11 for holder 1. -/
def exAReg1 : access_token.AccessRegistry :=
  { total_granted := 1, active_accesses := [(1, [11])] }

/-- The index after transferring token 11 from holder 1 to 2. -/
def exAReg2 : access_token.AccessRegistry :=
  { total_granted := 1, active_accesses := [(2, [11]), (1, [])] }

/-- The access token held by principal 1, issued by seller 1. -/
def exATok : access_token.AccessToken :=
  { id := 11, twin_id := "t", owner := 1, access_type := 1, granted_at := 0,
    expires_at := 86400, encrypted_key := [], purchase_listing_id := 7,
    is_active := true, original_seller := 1 }

/-- The registry after the C9 listing of a Temporary policy with
duration_days 0. -/
def regC9 : marketplace.MarketplaceRegistry :=
  { platform_fee_percent := 10, platform_fee_recipient := 9,
    total_listings := 2, total_sales := 0, total_volume := 0,
    listings := [(8, true), (7, true)] }

/-- The listing created by the C9 call. -/
def lstC9 : marketplace.Listing :=
  { id := 8, twin_id := "t", nft_id := 3, seller := 1, price := 100,
    access_type := 3, access_duration_days := 0, terms := "std",
    is_active := true, created_at := 0 }

/-! The claims. -/

/-- Claim C1 (amended).  At most one settle_purchase or delist ever
succeeds on a listing: once either has succeeded the listing is inactive
and stays so under any further sequence of operations; every later
settle_purchase fails with Inactive, and every later delist fails — with
Inactive when called by the seller, with NotSeller when called by anyone
else, since the source checks the seller before the active flag. -/
theorem C1_single_settlement (s0 s : marketplace.MState)
    (ops : List marketplace.MOp) (b pay c : Nat)
    (h : (∃ a, marketplace.delist_ai_twin s0 a = Except.ok s) ∨
         (∃ a p out, marketplace.purchase_access s0 a p = Except.ok (s, out))) :
    marketplace.purchase_access (marketplace.runOps s ops) b pay =
      Except.error (.code marketplace.ERROR_LISTING_INACTIVE) ∧
    (c = (marketplace.runOps s ops).listing.seller →
      marketplace.delist_ai_twin (marketplace.runOps s ops) c =
        Except.error (.code marketplace.ERROR_LISTING_INACTIVE)) ∧
    (c ≠ (marketplace.runOps s ops).listing.seller →
      marketplace.delist_ai_twin (marketplace.runOps s ops) c =
        Except.error (.code marketplace.ERROR_NOT_SELLER)) := by
  have hin : s.listing.is_active = false := by
    rcases h with ⟨a, hd⟩ | ⟨a, p, out, hp⟩
    · have hl := (marketplace.delist_ok_elim hd).2.2.1
      rw [hl]
    · have hl := (marketplace.purchase_ok_elim hp).2.2.2.2.2.1
      rw [hl]
  have hfix : marketplace.runOps s ops = s := marketplace.runOps_inactive_fix ops hin
  rw [hfix]
  refine ⟨marketplace.purchase_inactive b pay hin, ?_, ?_⟩
  · intro hc
    rw [marketplace.delist_inactive c hin]
    simp [hc]
  · intro hc
    rw [marketplace.delist_inactive c hin]
    have : (c == s.listing.seller) = false := by
      rw [beq_eq_false_iff_ne]
      exact hc
    simp [this]

/-- Claim C1 counterexample.  After a successful purchase, a delist by a
principal other than the seller fails with NotSeller, not with Inactive:
the claim that every later delist fails with Inactive is false. -/
theorem C1_counterexample :
    marketplace.purchase_access exState 2 100 = Except.ok (exSold, exOut) ∧
    marketplace.delist_ai_twin exSold 99 =
      Except.error (.code marketplace.ERROR_NOT_SELLER) ∧
    marketplace.delist_ai_twin exSold 99 ≠
      Except.error (.code marketplace.ERROR_LISTING_INACTIVE) :=
  ⟨rfl, rfl, by decide⟩

/-- Claim C1 witness: a concrete run of the amended theorem after a
successful purchase, with one further failed operation in between. -/
theorem C1_witness :
    marketplace.purchase_access
        (marketplace.runOps exSold [marketplace.MOp.purchase 5 500]) 4 100 =
      Except.error (.code marketplace.ERROR_LISTING_INACTIVE) ∧
    marketplace.delist_ai_twin
        (marketplace.runOps exSold [marketplace.MOp.purchase 5 500]) 1 =
      Except.error (.code marketplace.ERROR_LISTING_INACTIVE) ∧
    marketplace.delist_ai_twin
        (marketplace.runOps exSold [marketplace.MOp.purchase 5 500]) 99 =
      Except.error (.code marketplace.ERROR_NOT_SELLER) := by
  have h1 := C1_single_settlement exState exSold [marketplace.MOp.purchase 5 500]
    4 100 1 (Or.inr ⟨2, 100, exOut, rfl⟩)
  have h2 := C1_single_settlement exState exSold [marketplace.MOp.purchase 5 500]
    4 100 99 (Or.inr ⟨2, 100, exOut, rfl⟩)
  exact ⟨h1.1, h1.2.1 (by decide), h2.2.2 (by decide)⟩

/-- Claim C2.  Every successful settlement with fee_percent in [0,100]
and price at least 1 splits the price exactly: platform_fee is the floor
of price times fee over 100, seller_amount is the remainder, and the two
sum back to the price. -/
theorem C2_fee_split_conservation (s : marketplace.MState) (b pay : Nat)
    (s2 : marketplace.MState) (out : marketplace.PurchaseOut)
    (hfee : s.registry.platform_fee_percent ≤ 100)
    (hprice : 1 ≤ s.listing.price)
    (h : marketplace.purchase_access s b pay = Except.ok (s2, out)) :
    out.platform_fee = s.listing.price * s.registry.platform_fee_percent / 100 ∧
    out.seller_amount = s.listing.price - out.platform_fee ∧
    out.platform_fee + out.seller_amount = s.listing.price := by
  obtain ⟨_, _, hpf, hsa, hle, _, _⟩ := marketplace.purchase_ok_elim h
  refine ⟨hpf, hsa, ?_⟩
  rw [hsa]
  omega

/-- Claim C2 witness: price 100, fee 10 split into 10 and 90. -/
theorem C2_witness :
    exState.registry.platform_fee_percent ≤ 100 ∧ 1 ≤ exState.listing.price ∧
    marketplace.purchase_access exState 2 100 = Except.ok (exSold, exOut) ∧
    exOut.platform_fee = 10 ∧ exOut.seller_amount = 90 ∧
    exOut.platform_fee + exOut.seller_amount = exState.listing.price := by
  have h := C2_fee_split_conservation exState 2 100 exSold exOut
    (by decide) (by decide) rfl
  exact ⟨by decide, by decide, rfl, rfl, rfl, h.2.2⟩

/-- Claim C3.  A credential minted at clock time mT (milliseconds) with
duration_days d under a Limited or Temporary policy is reported valid by
check_access at clock time now exactly while it is unrevoked and
now in seconds is strictly before mint time in seconds plus d times
86400; once revoked it is invalid at every time. -/
theorem C3_check_valid_iff (reg reg2 : access_token.AccessRegistry)
    (fresh : Nat) (tid : String) (owner atype d : Nat) (key : List Nat)
    (lid seller mT : Nat) (tok : access_token.AccessToken)
    (hpol : atype = marketplace.ACCESS_TYPE_LIMITED ∨
            atype = marketplace.ACCESS_TYPE_TEMPORARY)
    (h : access_token.mint_access_token reg fresh tid owner atype d key lid
          seller mT = Except.ok (reg2, tok)) :
    (∀ now, access_token.check_access tok now = true ↔
      now / 1000 < mT / 1000 + d * access_token.SECONDS_PER_DAY) ∧
    (∀ a tok2, access_token.revoke_access tok a = Except.ok tok2 →
      ∀ now, access_token.check_access tok2 now = false) := by
  have htok := access_token.mint_ok_elim h
  constructor
  · intro now
    rw [htok, access_token.check_access_eq]
    simp
  · intro a tok2 hr now
    obtain ⟨_, htok2⟩ := access_token.revoke_ok_elim hr
    rw [htok2, access_token.check_access_eq]
    simp

/-- Claim C3 witness: duration 30 days minted at clock 0 — valid at 29
days, invalid at 31 days, invalid after revocation. -/
theorem C3_witness :
    access_token.mint_access_token exAReg 11 "t" 2 2 30 [] 7 1 0 =
      Except.ok (regC3, tokC3) ∧
    access_token.check_access tokC3 2505600000 = true ∧
    access_token.check_access tokC3 2678400000 = false ∧
    access_token.revoke_access tokC3 1 =
      Except.ok { tokC3 with is_active := false } ∧
    access_token.check_access { tokC3 with is_active := false } 1000 = false := by
  have h := C3_check_valid_iff exAReg regC3 11 "t" 2 2 30 [] 7 1 0 tokC3
    (Or.inl rfl) rfl
  refine ⟨rfl, (h.1 2505600000).mpr (by decide), ?_, rfl, h.2 1 _ rfl 1000⟩
  by_cases hc : access_token.check_access tokC3 2678400000 = true
  · exact absurd ((h.1 2678400000).mp hc) (by decide)
  · simpa using hc

/-- Claim C4 counterexample.  mint_access_token has no never-expiring
sentinel: under the Full policy it computes expires_at = now +
duration_days * 86400 like any other policy, so a Full credential minted
with duration_days 0 at clock 0 is unrevoked yet already reported invalid
one day later (indeed at any time). -/
theorem C4_counterexample :
    access_token.mint_access_token exAReg 12 "t" 2 marketplace.ACCESS_TYPE_FULL
      0 [] 7 1 0 = Except.ok (regC4, tokC4) ∧
    tokC4.is_active = true ∧ tokC4.expires_at = 0 ∧
    access_token.check_access tokC4 86400000 = false :=
  ⟨rfl, rfl, rfl, rfl⟩

/-- Claim C4 (amended).  A credential minted under the Full policy gets
the same numeric expiry as every other policy — expires_at = mint time in
seconds + duration_days * 86400, with no never sentinel — and while
unrevoked it is valid only at times strictly before that expiry. -/
theorem C4_full_expiry (reg reg2 : access_token.AccessRegistry)
    (fresh : Nat) (tid : String) (owner atype d : Nat) (key : List Nat)
    (lid seller mT : Nat) (tok : access_token.AccessToken)
    (hpol : atype = marketplace.ACCESS_TYPE_FULL)
    (h : access_token.mint_access_token reg fresh tid owner atype d key lid
          seller mT = Except.ok (reg2, tok)) :
    tok.expires_at = mT / 1000 + d * access_token.SECONDS_PER_DAY ∧
    tok.is_active = true ∧
    (∀ now, access_token.check_access tok now = true ↔
      now / 1000 < mT / 1000 + d * access_token.SECONDS_PER_DAY) := by
  have htok := access_token.mint_ok_elim h
  refine ⟨by rw [htok], by rw [htok], ?_⟩
  intro now
  rw [htok, access_token.check_access_eq]
  simp

/-- Claim C4 witness: the amended theorem at the Full-policy fixture. -/
theorem C4_witness :
    access_token.mint_access_token exAReg 12 "t" 2 marketplace.ACCESS_TYPE_FULL
      0 [] 7 1 0 = Except.ok (regC4, tokC4) ∧
    tokC4.expires_at = 0 / 1000 + 0 * access_token.SECONDS_PER_DAY ∧
    tokC4.is_active = true ∧
    access_token.check_access tokC4 0 = false := by
  have h := C4_full_expiry exAReg regC4 12 "t" 2 marketplace.ACCESS_TYPE_FULL
    0 [] 7 1 0 tokC4 rfl rfl
  refine ⟨rfl, h.1, h.2.1, ?_⟩
  by_cases hc : access_token.check_access tokC4 0 = true
  · exact absurd ((h.2.2 0).mp hc) (by decide)
  · simpa using hc

/-- Claim C5.  A purchase with payment below the price of an active
listing aborts with InsufficientPayment; the aborted transaction leaves
the state unchanged, and a later purchase with sufficient payment (and
in-range u64 values) still succeeds. -/
theorem C5_insufficient_payment_atomic (s : marketplace.MState)
    (b pay b2 pay2 : Nat)
    (hact : s.listing.is_active = true)
    (hlt : pay < s.listing.price)
    (hpay2 : s.listing.price ≤ pay2)
    (hmul : s.listing.price * s.registry.platform_fee_percent < U64SIZE)
    (hfee : s.registry.platform_fee_percent ≤ 100)
    (hts : s.registry.total_sales + 1 < U64SIZE)
    (htv : s.registry.total_volume + s.listing.price < U64SIZE) :
    marketplace.purchase_access s b pay =
      Except.error (.code marketplace.ERROR_INSUFFICIENT_PAYMENT) ∧
    marketplace.applyOp s (marketplace.MOp.purchase b pay) = s ∧
    ∃ s2 out, marketplace.purchase_access
      (marketplace.applyOp s (marketplace.MOp.purchase b pay)) b2 pay2 =
        Except.ok (s2, out) := by
  have he := marketplace.purchase_insufficient b hact hlt
  have hfix : marketplace.applyOp s (marketplace.MOp.purchase b pay) = s := by
    simp [marketplace.applyOp, he]
  refine ⟨he, hfix, ?_⟩
  rw [hfix]
  exact marketplace.purchase_succeeds b2 hact hpay2 hmul hfee hts htv

/-- Claim C5 witness: payment 50 against price 100 fails with
InsufficientPayment and the same buyer then succeeds with payment 100. -/
theorem C5_witness :
    marketplace.purchase_access exState 2 50 =
      Except.error (.code marketplace.ERROR_INSUFFICIENT_PAYMENT) ∧
    marketplace.applyOp exState (marketplace.MOp.purchase 2 50) = exState ∧
    marketplace.purchase_access
        (marketplace.applyOp exState (marketplace.MOp.purchase 2 50)) 2 100 =
      Except.ok (exSold, exOut) := by
  have h := C5_insufficient_payment_atomic exState 2 50 2 100 rfl (by decide)
    (by decide) (by decide) (by decide) (by decide) (by decide)
  exact ⟨h.1, h.2.1, rfl⟩

/-- Claim C6 counterexample.  A successful withdraw leaves a zero-valued
balance entry in place, so an immediate second withdraw for the same
principal fails with ERROR_INSUFFICIENT_BALANCE (code 0), not with
ERROR_NO_EARNINGS (code 1) as the claim states. -/
theorem C6_counterexample :
    revenue_distribution.record_sale
        { balances := [], total_platform_fees := 0, platform_fee_recipient := 9 }
        1 95 5 = Except.ok exPool ∧
    revenue_distribution.withdraw_earnings exPool 1 = Except.ok (exPool2, 95) ∧
    revenue_distribution.withdraw_earnings exPool2 1 =
      Except.error (.code revenue_distribution.ERROR_INSUFFICIENT_BALANCE) ∧
    revenue_distribution.withdraw_earnings exPool2 1 ≠
      Except.error (.code revenue_distribution.ERROR_NO_EARNINGS) :=
  ⟨rfl, rfl, rfl, by decide⟩

/-- Claim C6 (amended).  withdraw fails with NoEarnings only when the
principal has no balance entry at all; a zero-valued entry fails with
InsufficientBalance instead.  A successful withdraw returns the full
previous balance, leaves the entry in place at zero, and therefore an
immediate second withdraw with no intervening record_sale fails with
InsufficientBalance, not NoEarnings. -/
theorem C6_withdraw_behavior (pool : revenue_distribution.RevenuePool)
    (sender : Nat) :
    (pool.balances.contains sender = false →
      revenue_distribution.withdraw_earnings pool sender =
        Except.error (.code revenue_distribution.ERROR_NO_EARNINGS)) ∧
    (List.lookup sender pool.balances = some 0 →
      revenue_distribution.withdraw_earnings pool sender =
        Except.error (.code revenue_distribution.ERROR_INSUFFICIENT_BALANCE)) ∧
    (∀ pool2 amt,
      revenue_distribution.withdraw_earnings pool sender = Except.ok (pool2, amt) →
      0 < amt ∧ List.lookup sender pool.balances = some amt ∧
      revenue_distribution.get_balance pool2 sender = 0 ∧
      revenue_distribution.withdraw_earnings pool2 sender =
        Except.error (.code revenue_distribution.ERROR_INSUFFICIENT_BALANCE)) := by
  refine ⟨revenue_distribution.withdraw_no_entry,
    revenue_distribution.withdraw_zero_balance, ?_⟩
  intro pool2 amt h
  obtain ⟨hbal, hpos, hpool⟩ := revenue_distribution.withdraw_ok_elim h
  have hsome : (List.lookup sender pool.balances).isSome := by simp [hbal]
  have hl0 : List.lookup sender pool2.balances = some 0 := by
    rw [hpool]
    exact Table.lookup_set_self 0 hsome
  refine ⟨hpos, hbal, ?_, revenue_distribution.withdraw_zero_balance hl0⟩
  simp [revenue_distribution.get_balance, Table.contains, hl0]

/-- Claim C6 witness: the amended theorem at the fixture pool. -/
theorem C6_witness :
    revenue_distribution.withdraw_earnings exPool 1 = Except.ok (exPool2, 95) ∧
    0 < 95 ∧ List.lookup 1 exPool.balances = some 95 ∧
    revenue_distribution.get_balance exPool2 1 = 0 ∧
    revenue_distribution.withdraw_earnings exPool2 1 =
      Except.error (.code revenue_distribution.ERROR_INSUFFICIENT_BALANCE) := by
  have h := (C6_withdraw_behavior exPool 1).2.2 exPool2 95 rfl
  exact ⟨rfl, h.1, h.2.1, h.2.2.1, h.2.2.2⟩

/-- Claim C7 counterexample.  transfer_twin never fails with
ERROR_TWIN_NOT_FOUND: transferring an NFT whose twin_id is unknown to the
registry succeeds and silently registers the twin under the recipient. -/
theorem C7_counterexample :
    Table.contains exNReg.twins "t" = false ∧
    ai_twin_nft.transfer_twin exNReg 1 exNft 1 2 =
      Except.ok (exNReg2, exNft, 2) ∧
    List.lookup "t" exNReg2.twins = some 2 :=
  ⟨rfl, rfl, rfl⟩

/-- Claim C7 (amended).  transfer_twin is rejected (the NotOwner analog:
the Sui runtime ownership abort) exactly when the sender does not own the
NFT object; there is no in-code check against the registry and no
NotFound failure — for every sender owning the object, known or unknown
twin_id alike, the call succeeds and the registry records the recipient
as the twin owner. -/
theorem C7_transfer_twin_behavior (reg : ai_twin_nft.AITwinRegistry)
    (suiOwner : Nat) (nft : ai_twin_nft.AITwinNFT) (sender recipient : Nat) :
    (sender ≠ suiOwner →
      ai_twin_nft.transfer_twin reg suiOwner nft sender recipient =
        Except.error .ownership) ∧
    (sender = suiOwner →
      ∃ reg2, ai_twin_nft.transfer_twin reg suiOwner nft sender recipient =
        Except.ok (reg2, nft, recipient) ∧
        List.lookup nft.twin_id reg2.twins = some recipient) := by
  constructor
  · exact ai_twin_nft.transfer_twin_not_owner recipient
  · intro hs
    subst hs
    exact ai_twin_nft.transfer_twin_succeeds reg sender nft recipient

/-- Claim C7 witness: a non-owner is rejected; the owner transfers an
unregistered twin successfully. -/
theorem C7_witness :
    ai_twin_nft.transfer_twin exNReg 1 exNft 99 2 = Except.error .ownership ∧
    ai_twin_nft.transfer_twin exNReg 1 exNft 1 2 =
      Except.ok (exNReg2, exNft, 2) := by
  have h := C7_transfer_twin_behavior exNReg 1 exNft 99 2
  exact ⟨h.1 (by decide), rfl⟩

/-- Claim C8 counterexample.  A successful transfer_access returns the
token record entirely unchanged: its stored owner field still names the
previous holder 1, not the recipient 2 — the claim that transfer changes
the recorded holder to the recipient is false. -/
theorem C8_counterexample :
    access_token.transfer_access exAReg1 1 exATok 1 2 =
      Except.ok (exAReg2, exATok, 2) ∧
    exATok.owner = 1 ∧ (1 : Nat) ≠ 2 :=
  ⟨rfl, rfl, by decide⟩

/-- Claim C8 (amended).  transfer_access is rejected (the NotHolder
analog: the Sui runtime ownership abort) exactly when the sender does not
own the token object.  On success the object moves to the recipient and
the per-principal index gains the credential under the recipient, while
expires_at and the issuer are unchanged — but so is the stored owner
field: the token record still names the previous holder. -/
theorem C8_transfer_access_behavior (reg : access_token.AccessRegistry)
    (suiOwner : Nat) (tok : access_token.AccessToken) (sender recipient : Nat) :
    (sender ≠ suiOwner →
      access_token.transfer_access reg suiOwner tok sender recipient =
        Except.error .ownership) ∧
    (∀ reg2 tok2 newOwner,
      access_token.transfer_access reg suiOwner tok sender recipient =
        Except.ok (reg2, tok2, newOwner) →
      sender = suiOwner ∧ tok2 = tok ∧ newOwner = recipient ∧
      tok2.owner = tok.owner ∧ tok2.expires_at = tok.expires_at ∧
      tok2.original_seller = tok.original_seller ∧
      ∃ lst, List.lookup recipient reg2.active_accesses = some lst ∧
        tok.id ∈ lst) ∧
    (sender = suiOwner →
      ∃ reg2, access_token.transfer_access reg suiOwner tok sender recipient =
        Except.ok (reg2, tok, recipient)) := by
  refine ⟨fun h => access_token.transfer_not_owner recipient h, ?_, ?_⟩
  · intro reg2 tok2 newOwner h
    obtain ⟨hs, htok, hnew, hidx⟩ := access_token.transfer_ok_elim h
    exact ⟨hs, htok, hnew, by rw [htok], by rw [htok], by rw [htok], hidx⟩
  · intro hs
    subst hs
    exact access_token.transfer_access_succeeds reg sender tok recipient

/-- Claim C8 witness: a non-holder is rejected; the holder transfers and
the recipient index then lists the credential. -/
theorem C8_witness :
    access_token.transfer_access exAReg1 1 exATok 3 2 =
      Except.error .ownership ∧
    (∃ lst, List.lookup 2 exAReg2.active_accesses = some lst ∧
      exATok.id ∈ lst) := by
  have h := C8_transfer_access_behavior exAReg1 1 exATok 3 2
  have h2 := (C8_transfer_access_behavior exAReg1 1 exATok 1 2).2.1
    exAReg2 exATok 2 rfl
  exact ⟨h.1 (by decide), h2.2.2.2.2.2.2⟩

/-- Claim C9 counterexample.  list_ai_twin accepts a Temporary policy
with access_duration_days = 0: the call succeeds and creates an active
listing instead of failing with InvalidPolicy. -/
theorem C9_counterexample :
    marketplace.list_ai_twin exRegistry 8 3 "t" 100
      marketplace.ACCESS_TYPE_TEMPORARY 0 "std" 1 0 =
      Except.ok (regC9, lstC9) ∧
    lstC9.is_active = true ∧
    lstC9.access_type = marketplace.ACCESS_TYPE_TEMPORARY ∧
    lstC9.access_duration_days = 0 :=
  ⟨rfl, rfl, rfl, rfl⟩

/-- Claim C9 (amended).  list_ai_twin fails with InvalidPolicy exactly
when the access type is none of Full, Limited, Temporary; it performs no
duration check, so any recognized policy — Temporary with duration_days
0 included — yields an active listing (given a fresh object id and an
in-range listing counter). -/
theorem C9_list_policy_validation (registry : marketplace.MarketplaceRegistry)
    (fresh nft_id : Nat) (twin_id : String)
    (price access_type duration : Nat) (terms : String) (sender epoch : Nat) :
    ((access_type == marketplace.ACCESS_TYPE_FULL ||
      access_type == marketplace.ACCESS_TYPE_LIMITED ||
      access_type == marketplace.ACCESS_TYPE_TEMPORARY) = false →
      marketplace.list_ai_twin registry fresh nft_id twin_id price access_type
        duration terms sender epoch =
        Except.error (.code marketplace.ERROR_INVALID_ACCESS_TYPE)) ∧
    ((access_type == marketplace.ACCESS_TYPE_FULL ||
      access_type == marketplace.ACCESS_TYPE_LIMITED ||
      access_type == marketplace.ACCESS_TYPE_TEMPORARY) = true →
      registry.listings.contains fresh = false →
      registry.total_listings + 1 < U64SIZE →
      ∃ reg2 lst, marketplace.list_ai_twin registry fresh nft_id twin_id price
        access_type duration terms sender epoch = Except.ok (reg2, lst) ∧
        lst.is_active = true ∧ lst.access_duration_days = duration) := by
  constructor
  · intro hc
    unfold marketplace.list_ai_twin
    rw [hc]
    rfl
  · intro hc hfresh hlt
    simp only [marketplace.list_ai_twin, exBind_ok, req_ok, Table.add_ok,
      u64Add_ok, Except.ok.injEq, Prod.mk.injEq]
    exact ⟨_, _, ⟨(), hc, _, ⟨hfresh, rfl⟩, _, ⟨hlt, rfl⟩, rfl, rfl⟩, rfl, rfl⟩

/-- Claim C9 witness: an unrecognized access type 7 is rejected; the
Temporary policy with duration 0 is accepted. -/
theorem C9_witness :
    marketplace.list_ai_twin exRegistry 8 3 "t" 100 7 0 "std" 1 0 =
      Except.error (.code marketplace.ERROR_INVALID_ACCESS_TYPE) ∧
    (∃ reg2 lst, marketplace.list_ai_twin exRegistry 8 3 "t" 100 3 0 "std" 1 0 =
      Except.ok (reg2, lst) ∧ lst.is_active = true ∧
      lst.access_duration_days = 0) := by
  have h := C9_list_policy_validation exRegistry 8 3 "t" 100 7 0 "std" 1 0
  have h2 := C9_list_policy_validation exRegistry 8 3 "t" 100 3 0 "std" 1 0
  exact ⟨h.1 (by decide), h2.2 (by decide) (by decide) (by decide)⟩

/-- Claim C10.  A successful purchase leaves the registry listings table
untouched — the listing_id still maps to whatever it mapped to before, in
particular to true — while the listing record itself is now inactive;
after the sale no operation on the listing changes anything (so the table
entry and the flag disagree permanently), and only delist removes the
table entry. -/
theorem C10_purchase_leaves_table (s : marketplace.MState) (b pay : Nat)
    (s2 : marketplace.MState) (out : marketplace.PurchaseOut)
    (ops : List marketplace.MOp)
    (h : marketplace.purchase_access s b pay = Except.ok (s2, out)) :
    s2.registry.listings = s.registry.listings ∧
    (List.lookup s.listing.id s.registry.listings = some true →
      List.lookup s.listing.id s2.registry.listings = some true) ∧
    s2.listing.is_active = false ∧
    marketplace.runOps s2 ops = s2 ∧
    (∀ c s3, marketplace.delist_ai_twin s c = Except.ok s3 →
      List.lookup s.listing.id s3.registry.listings = none) := by
  obtain ⟨_, _, _, _, _, hlist, hreg⟩ := marketplace.purchase_ok_elim h
  have hin : s2.listing.is_active = false := by rw [hlist]
  exact ⟨hreg, fun hl => by rw [hreg]; exact hl, hin,
    marketplace.runOps_inactive_fix ops hin,
    fun c s3 hd => (marketplace.delist_ok_elim hd).2.2.2⟩

/-- Claim C10 witness: after the fixture purchase the table still maps
listing 7 to true, the flag is false, and further operations change
nothing. -/
theorem C10_witness :
    List.lookup exState.listing.id exSold.registry.listings = some true ∧
    exSold.listing.is_active = false ∧
    marketplace.runOps exSold
      [marketplace.MOp.delist 1, marketplace.MOp.purchase 2 100] = exSold := by
  have h := C10_purchase_leaves_table exState 2 100 exSold exOut
    [marketplace.MOp.delist 1, marketplace.MOp.purchase 2 100] rfl
  exact ⟨h.2.1 rfl, h.2.2.1, h.2.2.2.1⟩
